import Mathlib

/-!
Verification of the ModuleRegistry plugin-registry core.

Shallow embedding of the Python source:
  - src/modulebase.py        : the module contract (ModuleBase) and bundle validation
  - src/registry/registry.py : ModuleRegistry (register, activate, lookups, loader)
  - src/modules/weight_channels.py : the channel-weighting keyword-string parser

Python exception types are modelled as constructors of a single error kind
RegErr.  Mapping used throughout (spec name <-> source exception):
  NotFoundError       <-> FileNotFoundError   (load_directory)
  ContractError       <-> TypeError           (register: not a ModuleBase subclass)
  ValidationError     <-> AttributeError      (check_phis_kwargs)
  ModuleMissingError  <-> ModuleMissingError
  KeywordMissingError <-> KeywordMissingError
  KeywordFormatError  <-> KeywordFormatError
-/

instance {ε α : Type} [DecidableEq ε] [DecidableEq α] : DecidableEq (Except ε α)
  | Except.ok a, Except.ok b =>
      if h : a = b then isTrue (by rw [h]) else isFalse (by intro hc; cases hc; exact h rfl)
  | Except.ok _, Except.error _ => isFalse (by intro h; cases h)
  | Except.error _, Except.ok _ => isFalse (by intro h; cases h)
  | Except.error a, Except.error b =>
      if h : a = b then isTrue (by rw [h]) else isFalse (by intro hc; cases hc; exact h rfl)

inductive RegErr where
  | keywordMissingError (key : String)
  | moduleMissingError (key : String)
  | typeError
  | notFoundError
  | validationError
  | keywordFormatError
deriving DecidableEq

/-! ## Module contract (src/modulebase.py)

A module instance is modelled by its declared label lists and its get_fn.
A phi/kwarg bundle is modelled by its key list (an `Option`, `none` being
Python's `None`); only the key set is inspected by validation. -/

structure ModuleBase (α : Type) where
  name : String
  phi_labels : Option (List String)
  kwarg_labels : Option (List String)
  get_fn : Option (List String) → Option (List String) → α

/-- Python `set(xs) == set(ys)`. -/
def sameKeySet (xs ys : List String) : Bool :=
  xs.all (fun x => ys.contains x) && ys.all (fun y => xs.contains y)

/-- The per-bundle condition of `check_phis_kwargs`: no error is raised for
this bundle iff either both the bundle and the labels are `None`, or both are
present with equal key sets. -/
def labelsOk (labels : Option (List String)) (bundle : Option (List String)) : Bool :=
  match bundle, labels with
  | none, none => true
  | some b, some l => sameKeySet b l
  | _, _ => false

/-- `ModuleBase.check_phis_kwargs`: phis are checked first, then kwargs. -/
def ModuleBase.check_phis_kwargs (m : ModuleBase α)
    (phis kwargs : Option (List String)) : Except RegErr Unit :=
  if labelsOk m.phi_labels phis then
    if labelsOk m.kwarg_labels kwargs then Except.ok ()
    else Except.error RegErr.validationError
  else Except.error RegErr.validationError

/-- `ModuleBase.__call__`: validates both bundles, then delegates to get_fn. -/
def ModuleBase.call (m : ModuleBase α)
    (phis kwargs : Option (List String)) : Except RegErr α :=
  match m.check_phis_kwargs phis kwargs with
  | Except.error e => Except.error e
  | Except.ok _ => Except.ok (m.get_fn phis kwargs)

/-! ## Registry (src/registry/registry.py)

Python dicts are modelled as association lists with Python's update
semantics: assignment to an existing key replaces in place, otherwise the
pair is appended.  A module class is modelled by the pathSpec its instances
derive (`module.ClassName`) and by whether it inherits from ModuleBase.
Instance identity is modelled by a fresh id drawn at instantiation. -/

structure PyClass where
  spec : String
  isModuleBaseSubclass : Bool
deriving DecidableEq

structure ModInstance where
  id : Nat
  spec : String
  kw : Option String
deriving DecidableEq

/-- Python dict read: `d.get(k)` / `k in d`. -/
def dget {α : Type} : List (String × α) → String → Option α
  | [], _ => none
  | (k', v) :: rest, k => if k' = k then some v else dget rest k

/-- Python dict write `d[k] = v`: replace in place or append. -/
def dset {α : Type} : List (String × α) → String → α → List (String × α)
  | [], k, v => [(k, v)]
  | (k', v') :: rest, k, v =>
      if k' = k then (k, v) :: rest else (k', v') :: dset rest k v

def dkeys {α : Type} (d : List (String × α)) : List String :=
  d.map Prod.fst

structure RegistryState where
  nextId : Nat
  path_dict : List (String × ModInstance)
  kw_registry : List (String × ModInstance)
  warnings : List (String × String × String)
  log : List String
deriving DecidableEq

def emptyRegistry : RegistryState :=
  ⟨0, [], [], [], []⟩

def pendingSpecs (pending : List (PyClass × Option String)) : List String :=
  pending.map (fun e => e.1.spec)

/-- `ModuleRegistry.register`: reject non-ModuleBase classes with TypeError,
otherwise append `(class, kw)` to the shared pending list. -/
def ModuleRegistry.register (pending : List (PyClass × Option String))
    (module_class : PyClass) (kw : Option String) :
    Except RegErr (List (PyClass × Option String)) :=
  if module_class.isModuleBaseSubclass then Except.ok (pending ++ [(module_class, kw)])
  else Except.error RegErr.typeError

/-- `register_module(kw)` decorator: registers the class, then returns the
class itself unchanged. -/
def register_module (kw : Option String) (cls : PyClass)
    (pending : List (PyClass × Option String)) :
    Except RegErr (List (PyClass × Option String) × PyClass) :=
  match ModuleRegistry.register pending cls kw with
  | Except.error e => Except.error e
  | Except.ok p => Except.ok (p, cls)

/-- One iteration of the `activate` loop over a pending `(class, kw)` entry:
instantiate (fresh id, pathSpec from the class), insert into the path index,
log the activation, and if a keyword was declared, warn on collision (naming
the dropped and the new pathSpec) and insert into the keyword index. -/
def activateStep (st : RegistryState) (e : PyClass × Option String) : RegistryState :=
  match e.2 with
  | none =>
      ⟨st.nextId + 1,
       dset st.path_dict e.1.spec ⟨st.nextId, e.1.spec, none⟩,
       st.kw_registry,
       st.warnings,
       st.log ++ [e.1.spec]⟩
  | some k =>
      ⟨st.nextId + 1,
       dset st.path_dict e.1.spec ⟨st.nextId, e.1.spec, some k⟩,
       dset st.kw_registry k ⟨st.nextId, e.1.spec, some k⟩,
       (match dget st.kw_registry k with
        | some old => st.warnings ++ [(k, old.spec, e.1.spec)]
        | none => st.warnings),
       st.log ++ [e.1.spec]⟩

/-- `ModuleRegistry.activate`: process the entire pending list, in order. -/
def ModuleRegistry.activate (st : RegistryState)
    (pending : List (PyClass × Option String)) : RegistryState :=
  pending.foldl activateStep st

/-- n successive `activate()` calls on a fresh registry over the same
pending list. -/
def activateN (pending : List (PyClass × Option String)) : Nat → RegistryState
  | 0 => emptyRegistry
  | n + 1 => ModuleRegistry.activate (activateN pending n) pending

/-- `ModuleRegistry.__getitem__`: path lookup, `ModuleMissingError` on miss. -/
def ModuleRegistry.getitem (st : RegistryState) (key : String) :
    Except RegErr ModInstance :=
  match dget st.path_dict key with
  | none => Except.error (RegErr.moduleMissingError key)
  | some v => Except.ok v

/-- `KeywordRegistry.__getitem__`: keyword lookup, `KeywordMissingError` on
miss. -/
def KeywordRegistry.getitem (st : RegistryState) (key : String) :
    Except RegErr ModInstance :=
  match dget st.kw_registry key with
  | none => Except.error (RegErr.keywordMissingError key)
  | some v => Except.ok v

/-- `ModuleRegistry.get_by_path`: with a (non-None) default, `dict.get` on
the path index; otherwise `self[key]`. -/
def ModuleRegistry.get_by_path (st : RegistryState) (key : String)
    (default : Option ModInstance) : Except RegErr ModInstance :=
  match default with
  | some d => Except.ok ((dget st.path_dict key).getD d)
  | none => ModuleRegistry.getitem st key

/-- `ModuleRegistry.get_by_kw`: with a (non-None) default the source reads
`self.path_dict.get(key, default)` — it consults the PATH index, not the
keyword registry; without a default, `self.kw_registry[key]`. -/
def ModuleRegistry.get_by_kw (st : RegistryState) (key : String)
    (default : Option ModInstance) : Except RegErr ModInstance :=
  match default with
  | some d => Except.ok ((dget st.path_dict key).getD d)
  | none => KeywordRegistry.getitem st key

/-! ## Loader (src/registry/registry.py, load_directory)

The filesystem is modelled by the directory's existence flag and the result
of `glob('**/*.py')`: the .py files under the directory, as (subdirectory
components, file name) relative to the directory.  `load_directory` is
modelled as the load plan it executes: the list of (dotted specifier, file)
pairs passed to `load_module`, in traversal order. -/

structure PyFile where
  subdirs : List String
  fileName : String
deriving DecidableEq

/-- `with_suffix('')` on a glob('**/*.py') result: drop the ".py". -/
def stripPySuffix (s : String) : String :=
  if s.toList.reverse.take 3 = ['y', 'p', '.'] then s.dropRight 3 else s

/-- `str(module.relative_to(directory.parent).with_suffix('')).replace('/', '.')`. -/
def dottedSpec (dirName : String) (f : PyFile) : String :=
  String.intercalate "." (dirName :: (f.subdirs ++ [stripPySuffix f.fileName]))

/-- The loop body of `load_directory`: every glob hit other than
`__init__.py` is loaded under its dotted specifier. -/
def globLoads (dirName : String) : List PyFile → List (String × PyFile)
  | [] => []
  | f :: rest =>
      if f.fileName = "__init__.py" then globLoads dirName rest
      else (dottedSpec dirName f, f) :: globLoads dirName rest

structure SrcDir where
  name : String
  pathExists : Bool
  pyFiles : List PyFile
deriving DecidableEq

/-- `ModuleRegistry.load_directory`: FileNotFoundError if the directory does
not exist, otherwise the load plan over the glob results. -/
def ModuleRegistry.load_directory (d : SrcDir) :
    Except RegErr (List (String × PyFile)) :=
  if d.pathExists then Except.ok (globLoads d.name d.pyFiles)
  else Except.error RegErr.notFoundError

def exceptOk {ε α : Type} : Except ε α → Bool
  | Except.ok _ => true
  | Except.error _ => false

/-! ## Channel-weighting keyword parser (src/modules/weight_channels.py)

`WCBasic.parse_kw` matches the keyword string against
  (\d+)x(\d+)(?:x(\d+))?((?:\.[a-zA-Z])*)
anchored at both ends, builds the coefficient-mean and coefficient-sd arrays
with shape (inputs, outputs) (np.empty: only the shape is observable), and
then checks the option letters.  The regex is implemented as a committed
character-level parser; since the option tail can never start with a digit
or an x-followed-by-digits, the committed parse accepts exactly the strings
the backtracking regex accepts. -/

structure WCParsed where
  mean : Nat × Nat
  sd : Nat × Nat
deriving DecidableEq

def digitsToNat (ds : List Char) : Nat :=
  ds.foldl (fun acc c => acc * 10 + (c.toNat - 48)) 0

def takeDigits : List Char → List Char × List Char
  | [] => ([], [])
  | c :: cs =>
      if c.isDigit then
        let r := takeDigits cs
        (c :: r.1, r.2)
      else ([], c :: cs)

/-- The `((?:\.[a-zA-Z])*)` option tail: a sequence of dot-letter pairs,
returning the letters. -/
def parseOptionChars : List Char → Option (List Char)
  | [] => some []
  | '.' :: c :: rest =>
      if c.isAlpha then (parseOptionChars rest).map (fun l => c :: l) else none
  | _ => none

def wc_available_options : List Char := ['c', 'g', 'n', 'z', 'o']

namespace WCBasic

def parse_kw (kw_string : String) : Except RegErr WCParsed :=
  let cs := kw_string.toList
  let p1 := takeDigits cs
  if p1.1.isEmpty then Except.error RegErr.keywordFormatError else
  match p1.2 with
  | 'x' :: r2 =>
      let p2 := takeDigits r2
      if p2.1.isEmpty then Except.error RegErr.keywordFormatError else
      let rest : List Char :=
        match p2.2 with
        | 'x' :: r4 =>
            match takeDigits r4 with
            | ([], _) => p2.2
            | (_, r5) => r5
        | _ => p2.2
      match parseOptionChars rest with
      | none => Except.error RegErr.keywordFormatError
      | some opts =>
          let inputs := digitsToNat p1.1
          let outputs := digitsToNat p2.1
          if opts.isEmpty then Except.ok ⟨(inputs, outputs), (inputs, outputs)⟩
          else if !(opts.all (fun c => wc_available_options.contains c)) then
            Except.error RegErr.keywordFormatError
          else if opts.contains 'g' && opts.contains 'c' then
            Except.error RegErr.keywordFormatError
          else Except.ok ⟨(inputs, outputs), (inputs, outputs)⟩
  | _ => Except.error RegErr.keywordFormatError

end WCBasic

/-! ## Dictionary lemmas -/

theorem dget_dset_self {α : Type} (d : List (String × α)) (k : String) (v : α) :
    dget (dset d k v) k = some v := by
  induction d with
  | nil => simp [dset, dget]
  | cons e rest ih =>
      obtain ⟨k1, v1⟩ := e
      by_cases h : k1 = k
      · simp [dset, h, dget]
      · simp [dset, h, dget, ih]

theorem dget_dset_ne {α : Type} (d : List (String × α)) (k k2 : String) (v : α)
    (h : k ≠ k2) : dget (dset d k v) k2 = dget d k2 := by
  induction d with
  | nil => simp [dset, dget, h]
  | cons e rest ih =>
      obtain ⟨k1, v1⟩ := e
      by_cases h1 : k1 = k
      · simp [dset, h1, dget, h]
      · simp [dset, h1, dget, ih]

theorem dkeys_dset {α : Type} (d : List (String × α)) (k : String) (v : α) :
    dkeys (dset d k v) = if k ∈ dkeys d then dkeys d else dkeys d ++ [k] := by
  simp only [dkeys]
  induction d with
  | nil => simp [dset]
  | cons e rest ih =>
      obtain ⟨k1, v1⟩ := e
      by_cases h : k1 = k
      · subst h
        simp [dset]
      · have hne : ¬ k = k1 := fun hc => h hc.symm
        simp only [dset, if_neg h, List.map_cons, ih]
        by_cases hm : k ∈ List.map Prod.fst rest
        · simp [hm, hne]
        · simp [hm, hne]

theorem dkeys_dset_mem {α : Type} {d : List (String × α)} {k : String} {v : α}
    (h : k ∈ dkeys d) : dkeys (dset d k v) = dkeys d := by
  rw [dkeys_dset, if_pos h]

theorem mem_dkeys_dset_self {α : Type} (d : List (String × α)) (k : String) (v : α) :
    k ∈ dkeys (dset d k v) := by
  rw [dkeys_dset]
  split
  · assumption
  · simp

theorem mem_dkeys_dset_of_mem {α : Type} {d : List (String × α)} {x : String}
    (k : String) (v : α) (h : x ∈ dkeys d) : x ∈ dkeys (dset d k v) := by
  rw [dkeys_dset]
  split <;> simp [h]

theorem nodup_dkeys_dset {α : Type} {d : List (String × α)} (k : String) (v : α)
    (h : (dkeys d).Nodup) : (dkeys (dset d k v)).Nodup := by
  rw [dkeys_dset]
  split
  · exact h
  · next hm => simp [List.nodup_append, h, hm]

/-! ## Pending-list lemmas -/

def entryPairs (pending : List (PyClass × Option String)) : List (String × Option String) :=
  pending.map (fun e => (e.1.spec, e.2))

theorem mem_pendingSpecs_of_pair {P : List (PyClass × Option String)} {s : String}
    {a : Option String} (h : (s, a) ∈ entryPairs P) : s ∈ pendingSpecs P := by
  induction P with
  | nil => simp [entryPairs] at h
  | cons e rest ih =>
      simp only [entryPairs, List.map_cons, List.mem_cons] at h
      rcases h with h | h
      · simp [pendingSpecs, Prod.ext_iff] at h ⊢
        exact Or.inl h.1
      · simp only [pendingSpecs, List.map_cons, List.mem_cons]
        exact Or.inr (ih h)

theorem entryPairs_unique {P : List (PyClass × Option String)}
    (hnd : (pendingSpecs P).Nodup) {s : String} {a b : Option String}
    (ha : (s, a) ∈ entryPairs P) (hb : (s, b) ∈ entryPairs P) : a = b := by
  induction P with
  | nil => simp [entryPairs] at ha
  | cons e rest ih =>
      have hnd2 : (pendingSpecs rest).Nodup ∧ e.1.spec ∉ pendingSpecs rest := by
        simpa [pendingSpecs, List.nodup_cons, and_comm] using hnd
      simp only [entryPairs, List.map_cons, List.mem_cons, Prod.ext_iff] at ha hb
      rcases ha with ha | ha
      · rcases hb with hb | hb
        · exact ha.2.trans hb.2.symm
        · exact absurd (ha.1 ▸ mem_pendingSpecs_of_pair hb) hnd2.2
      · rcases hb with hb | hb
        · exact absurd (hb.1 ▸ mem_pendingSpecs_of_pair ha) hnd2.2
        · exact ih hnd2.1 ha hb

/-! ## Activation lemmas -/

theorem activateStep_nextId (st : RegistryState) (e : PyClass × Option String) :
    (activateStep st e).nextId = st.nextId + 1 := by
  cases h : e.2 <;> simp [activateStep, h]

theorem activateStep_log (st : RegistryState) (e : PyClass × Option String) :
    (activateStep st e).log = st.log ++ [e.1.spec] := by
  cases h : e.2 <;> simp [activateStep, h]

theorem activateStep_path (st : RegistryState) (e : PyClass × Option String) :
    (activateStep st e).path_dict =
      dset st.path_dict e.1.spec ⟨st.nextId, e.1.spec, e.2⟩ := by
  cases h : e.2 <;> simp [activateStep, h]

theorem activateStep_kw_none (st : RegistryState) (e : PyClass × Option String)
    (h : e.2 = none) : (activateStep st e).kw_registry = st.kw_registry := by
  simp [activateStep, h]

theorem activateStep_kw_some (st : RegistryState) (e : PyClass × Option String)
    (k : String) (h : e.2 = some k) :
    (activateStep st e).kw_registry =
      dset st.kw_registry k ⟨st.nextId, e.1.spec, some k⟩ := by
  simp [activateStep, h]

theorem activate_nil (st : RegistryState) : ModuleRegistry.activate st [] = st := rfl

theorem activate_cons (st : RegistryState) (e : PyClass × Option String)
    (P : List (PyClass × Option String)) :
    ModuleRegistry.activate st (e :: P) = ModuleRegistry.activate (activateStep st e) P := rfl

theorem activate_log (P : List (PyClass × Option String)) :
    ∀ st : RegistryState, (ModuleRegistry.activate st P).log = st.log ++ pendingSpecs P := by
  induction P with
  | nil => intro st; simp [activate_nil, pendingSpecs]
  | cons e rest ih =>
      intro st
      rw [activate_cons, ih, activateStep_log]
      simp [pendingSpecs]

theorem activate_nextId (P : List (PyClass × Option String)) :
    ∀ st : RegistryState, (ModuleRegistry.activate st P).nextId = st.nextId + P.length := by
  induction P with
  | nil => intro st; simp [activate_nil]
  | cons e rest ih =>
      intro st
      rw [activate_cons, ih, activateStep_nextId]
      simp [Nat.add_assoc, Nat.add_comm 1]

theorem mem_dkeys_path_activate {x : String} (P : List (PyClass × Option String)) :
    ∀ st : RegistryState, x ∈ dkeys st.path_dict →
      x ∈ dkeys (ModuleRegistry.activate st P).path_dict := by
  induction P with
  | nil => intro st h; simpa [activate_nil] using h
  | cons e rest ih =>
      intro st h
      rw [activate_cons]
      exact ih _ (by rw [activateStep_path]; exact mem_dkeys_dset_of_mem _ _ h)

theorem pendingSpecs_mem_dkeys_activate {e : PyClass × Option String}
    (P : List (PyClass × Option String)) (he : e ∈ P) :
    ∀ st : RegistryState, e.1.spec ∈ dkeys (ModuleRegistry.activate st P).path_dict := by
  induction P with
  | nil => cases he
  | cons f rest ih =>
      intro st
      rcases List.mem_cons.mp he with h | h
      · subst h
        rw [activate_cons]
        exact mem_dkeys_path_activate rest _
          (by rw [activateStep_path]; exact mem_dkeys_dset_self _ _ _)
      · rw [activate_cons]
        exact ih h _

theorem dkeys_activate_of_subset (P : List (PyClass × Option String)) :
    ∀ st : RegistryState, (∀ e ∈ P, e.1.spec ∈ dkeys st.path_dict) →
      dkeys (ModuleRegistry.activate st P).path_dict = dkeys st.path_dict := by
  induction P with
  | nil => intro st _; simp [activate_nil]
  | cons e rest ih =>
      intro st h
      rw [activate_cons, ih]
      · rw [activateStep_path]
        exact dkeys_dset_mem (h e (List.mem_cons_self e rest))
      · intro f hf
        rw [activateStep_path]
        exact mem_dkeys_dset_of_mem _ _ (h f (List.mem_cons_of_mem e hf))

theorem nodup_dkeys_activate (P : List (PyClass × Option String)) :
    ∀ st : RegistryState, (dkeys st.path_dict).Nodup →
      (dkeys (ModuleRegistry.activate st P).path_dict).Nodup := by
  induction P with
  | nil => intro st h; simpa [activate_nil] using h
  | cons e rest ih =>
      intro st h
      rw [activate_cons]
      exact ih _ (by rw [activateStep_path]; exact nodup_dkeys_dset _ _ h)

/-! ## Index-consistency invariant

`GoodState P st` says: every instance reachable through the keyword index is
stored under its own pathSpec in the path index, and its (pathSpec, keyword)
pair comes from a pending entry of `P`. -/

def GoodState (P : List (PyClass × Option String)) (st : RegistryState) : Prop :=
  ∀ k inst, dget st.kw_registry k = some inst →
    dget st.path_dict inst.spec = some inst ∧ (inst.spec, some k) ∈ entryPairs P

theorem goodState_empty (P : List (PyClass × Option String)) :
    GoodState P emptyRegistry := by
  intro k inst h
  simp [emptyRegistry, dget] at h

theorem goodState_step (P : List (PyClass × Option String))
    (hnd : (pendingSpecs P).Nodup) (st : RegistryState) (e : PyClass × Option String)
    (he : (e.1.spec, e.2) ∈ entryPairs P) (hst : GoodState P st) :
    GoodState P (activateStep st e) := by
  intro k inst h
  cases hkw : e.2 with
  | none =>
      rw [activateStep_kw_none st e hkw] at h
      obtain ⟨hp, hm⟩ := hst k inst h
      refine ⟨?_, hm⟩
      rw [activateStep_path]
      by_cases hs : inst.spec = e.1.spec
      · exact absurd (entryPairs_unique hnd (hs ▸ hm) (hkw ▸ he)) (by simp)
      · rw [dget_dset_ne _ _ _ _ (fun hc => hs hc.symm)]
        exact hp
  | some k0 =>
      rw [activateStep_kw_some st e k0 hkw] at h
      by_cases hk : k = k0
      · subst hk
        rw [dget_dset_self] at h
        obtain rfl : inst = ⟨st.nextId, e.1.spec, some k⟩ := by
          injection h with h2
          exact h2.symm
        refine ⟨?_, hkw ▸ he⟩
        rw [activateStep_path, hkw]
        simpa using dget_dset_self st.path_dict e.1.spec ⟨st.nextId, e.1.spec, some k⟩
      · rw [dget_dset_ne _ _ _ _ (fun hc => hk hc.symm)] at h
        obtain ⟨hp, hm⟩ := hst k inst h
        refine ⟨?_, hm⟩
        rw [activateStep_path]
        by_cases hs : inst.spec = e.1.spec
        · have := entryPairs_unique hnd (hs ▸ hm) (hkw ▸ he)
          injection this with h3
          exact absurd h3 hk
        · rw [dget_dset_ne _ _ _ _ (fun hc => hs hc.symm)]
          exact hp

theorem goodState_fold (P Q : List (PyClass × Option String))
    (hnd : (pendingSpecs P).Nodup)
    (hq : ∀ e ∈ Q, (e.1.spec, e.2) ∈ entryPairs P) :
    ∀ st : RegistryState, GoodState P st → GoodState P (Q.foldl activateStep st) := by
  induction Q with
  | nil => intro st h; exact h
  | cons e rest ih =>
      intro st h
      rw [List.foldl_cons]
      exact ih (fun f hf => hq f (List.mem_cons_of_mem e hf)) _
        (goodState_step P hnd st e (hq e (List.mem_cons_self e rest)) h)

theorem goodState_activate (P : List (PyClass × Option String))
    (hnd : (pendingSpecs P).Nodup) (st : RegistryState) (h : GoodState P st) :
    GoodState P (ModuleRegistry.activate st P) :=
  goodState_fold P P hnd
    (fun _ he => List.mem_map_of_mem (fun f => (f.1.spec, f.2)) he) st h

theorem goodState_activateN (P : List (PyClass × Option String))
    (hnd : (pendingSpecs P).Nodup) (n : Nat) : GoodState P (activateN P n) := by
  induction n with
  | zero => exact goodState_empty P
  | succ n ih => exact goodState_activate P hnd _ ih

/-! ## Loader lemmas -/

theorem globLoads_complete (dirName : String) (files : List PyFile) (f : PyFile)
    (hf : f ∈ files) (hne : f.fileName ≠ "__init__.py") :
    (dottedSpec dirName f, f) ∈ globLoads dirName files := by
  induction files with
  | nil => cases hf
  | cons g rest ih =>
      rcases List.mem_cons.mp hf with h | h
      · subst h
        simp [globLoads, hne]
      · by_cases hg : g.fileName = "__init__.py"
        · simpa [globLoads, hg] using ih h
        · simp only [globLoads, if_neg hg, List.mem_cons]
          exact Or.inr (ih h)

theorem globLoads_sound (dirName : String) (files : List PyFile)
    (p : String × PyFile) (hp : p ∈ globLoads dirName files) :
    p.2 ∈ files ∧ p.2.fileName ≠ "__init__.py" ∧ p.1 = dottedSpec dirName p.2 := by
  induction files with
  | nil => simp [globLoads] at hp
  | cons g rest ih =>
      by_cases hg : g.fileName = "__init__.py"
      · rw [globLoads, if_pos hg] at hp
        obtain ⟨h1, h2, h3⟩ := ih hp
        exact ⟨List.mem_cons_of_mem g h1, h2, h3⟩
      · rw [globLoads, if_neg hg] at hp
        rcases List.mem_cons.mp hp with h | h
        · subst h
          exact ⟨List.mem_cons_self g rest, hg, rfl⟩
        · obtain ⟨h1, h2, h3⟩ := ih h
          exact ⟨List.mem_cons_of_mem g h1, h2, h3⟩

/-! ## Claims -/

def c1Pending : List (PyClass × Option String) := [(⟨"m.A", true⟩, some "k")]

def c1Default : ModInstance := ⟨99, "DEFAULT", none⟩

/-- C1 (code bug, evaluated at the failing input): after activating a
registry whose keyword index maps "k" to the activated instance, a
`get_by_kw("k", default)` call with a default supplied returns the default —
the source consults `path_dict` instead of the keyword registry, against its
own docstring.  The no-default paths behave as the claim states: a hit
returns the stored instance, a miss fails with `KeywordMissingError` naming
the key. -/
theorem c1_get_by_kw_default_consults_path_index :
    dget (ModuleRegistry.activate emptyRegistry c1Pending).kw_registry "k" =
      some ⟨0, "m.A", some "k"⟩ ∧
    ModuleRegistry.get_by_kw (ModuleRegistry.activate emptyRegistry c1Pending) "k"
      (some c1Default) = Except.ok c1Default ∧
    ModuleRegistry.get_by_kw (ModuleRegistry.activate emptyRegistry c1Pending) "k"
      none = Except.ok ⟨0, "m.A", some "k"⟩ ∧
    ModuleRegistry.get_by_kw (ModuleRegistry.activate emptyRegistry c1Pending) "missing"
      none = Except.error (RegErr.keywordMissingError "missing") :=
  ⟨by decide, by decide, by decide, by decide⟩

/-- C2: invoking a module as a whole first validates both bundles against
the declared label sets and fails with the typed ValidationError whenever a
bundle fails the label-set check — for any get_fn, i.e. before get_fn is
consulted — including when every required key is present but an extra key is
too (the witness exercises exactly that case). -/
theorem c2_call_validates_bundles {α : Type} (m : ModuleBase α)
    (phis kwargs : Option (List String))
    (h : labelsOk m.phi_labels phis = false ∨ labelsOk m.kwarg_labels kwargs = false) :
    m.call phis kwargs = Except.error RegErr.validationError := by
  rcases h with h | h
  · simp [ModuleBase.call, ModuleBase.check_phis_kwargs, h]
  · by_cases h1 : labelsOk m.phi_labels phis
    · simp [ModuleBase.call, ModuleBase.check_phis_kwargs, h1, h]
    · simp [ModuleBase.call, ModuleBase.check_phis_kwargs, h1]

def c2Module : ModuleBase Nat :=
  ⟨"WC Basic", some ["coefficients"], none, fun _ _ => 7⟩

/-- C2 witness: a phi bundle with the required key plus an extra key fails
the label check and the call raises ValidationError. -/
theorem c2_call_validates_bundles_witness :
    labelsOk c2Module.phi_labels (some ["coefficients", "extra"]) = false ∧
    c2Module.call (some ["coefficients", "extra"]) none =
      Except.error RegErr.validationError :=
  ⟨by decide,
   c2_call_validates_bundles c2Module (some ["coefficients", "extra"]) none
     (Or.inl (by decide))⟩

def c3Module : ModuleBase Unit := ⟨"Sigmoid", none, none, fun _ _ => ()⟩

/-- C3 counterexample: a module declaring the "none required" phi sentinel
REJECTS an explicitly empty (but present) phi bundle — the call raises
ValidationError where the claim says it succeeds. -/
theorem c3_empty_bundle_rejected :
    c3Module.phi_labels = none ∧
    c3Module.call (some []) none = Except.error RegErr.validationError :=
  ⟨rfl, by decide⟩

/-- C3 (amended): for a module whose declared phi label set is the "none
required" sentinel, any PRESENT phi bundle — non-empty or empty — fails with
ValidationError; only an absent (None) phi bundle is accepted, succeeding
whenever the kwarg bundle matches its labels. -/
theorem c3_none_sentinel_amended {α : Type} (m : ModuleBase α)
    (h : m.phi_labels = none) (kwargs : Option (List String)) :
    (∀ keys, m.call (some keys) kwargs = Except.error RegErr.validationError) ∧
    (labelsOk m.kwarg_labels kwargs = true →
      m.call none kwargs = Except.ok (m.get_fn none kwargs)) := by
  constructor
  · intro keys
    have hf : labelsOk m.phi_labels (some keys) = false := by rw [h]; rfl
    simp [ModuleBase.call, ModuleBase.check_phis_kwargs, hf]
  · intro hk
    have ht : labelsOk m.phi_labels none = true := by rw [h]; rfl
    simp [ModuleBase.call, ModuleBase.check_phis_kwargs, ht, hk]

/-- C3 witness: for the concrete sentinel module, a non-empty phi bundle is
rejected and the absent bundle succeeds. -/
theorem c3_none_sentinel_amended_witness :
    c3Module.phi_labels = none ∧
    c3Module.call (some ["x"]) none = Except.error RegErr.validationError ∧
    c3Module.call none none = Except.ok () :=
  ⟨rfl, (c3_none_sentinel_amended c3Module rfl none).1 ["x"],
   (c3_none_sentinel_amended c3Module rfl none).2 rfl⟩

def c4Pending : List (PyClass × Option String) :=
  [(⟨"m.X", true⟩, some "k1"), (⟨"m.X", true⟩, some "k2")]

/-- C4 counterexample: two pending classes yielding the same pathSpec "m.X"
under different keywords; after activation the instance reachable via
keyword "k1" is not a value of the path index under any key. -/
theorem c4_same_pathspec_breaks_consistency :
    dget (ModuleRegistry.activate emptyRegistry c4Pending).kw_registry "k1" =
      some ⟨0, "m.X", some "k1"⟩ ∧
    (⟨0, "m.X", some "k1"⟩ : ModInstance) ∉
      (ModuleRegistry.activate emptyRegistry c4Pending).path_dict.map Prod.snd :=
  ⟨by decide, by decide⟩

/-- C4 (amended): for every pending list whose pathSpecs are pairwise
distinct and any number of activate() calls on a fresh registry, every
instance reachable via the keyword index is also reachable via the path
index, namely under its own pathSpec.  (Two pending classes yielding the
same pathSpec can break the invariant — see the counterexample.) -/
theorem c4_index_consistency_amended (P : List (PyClass × Option String)) (n : Nat)
    (hnd : (pendingSpecs P).Nodup) (k : String) (inst : ModInstance)
    (hk : ModuleRegistry.get_by_kw (activateN P n) k none = Except.ok inst) :
    ModuleRegistry.get_by_path (activateN P n) inst.spec none = Except.ok inst := by
  have hg := goodState_activateN P hnd n
  have hd : dget (activateN P n).kw_registry k = some inst := by
    cases h : dget (activateN P n).kw_registry k with
    | none => simp [ModuleRegistry.get_by_kw, KeywordRegistry.getitem, h] at hk
    | some v =>
        simp [ModuleRegistry.get_by_kw, KeywordRegistry.getitem, h] at hk
        rw [hk]
  obtain ⟨hp, _⟩ := hg k inst hd
  simp [ModuleRegistry.get_by_path, ModuleRegistry.getitem, hp]

def c4WPending : List (PyClass × Option String) := [(⟨"m.A", true⟩, some "fir")]

/-- C4 witness: one registration, one activation; the keyword hit is
reachable by its pathSpec. -/
theorem c4_index_consistency_amended_witness :
    ModuleRegistry.get_by_path (activateN c4WPending 1) "m.A" none =
      Except.ok ⟨0, "m.A", some "fir"⟩ :=
  c4_index_consistency_amended c4WPending 1 (by decide) "fir" ⟨0, "m.A", some "fir"⟩
    (by decide)

def c5Pending : List (PyClass × Option String) := [(⟨"m.A", true⟩, none)]

/-- C5 counterexample: re-activating over the same one-entry pending list
does NOT create duplicate path-index entries — the path index still holds
exactly one entry for "m.A", overwritten in place with the fresh second-run
instance (while the class was indeed instantiated twice: two log entries and
nextId 2). -/
theorem c5_no_duplicate_path_entries :
    ModuleRegistry.activate (ModuleRegistry.activate emptyRegistry c5Pending) c5Pending =
      ⟨2, [("m.A", ⟨1, "m.A", none⟩)], [], [], ["m.A", "m.A"]⟩ := by decide

/-- C5 (amended): a second activate() re-processes the entire pending list —
each pending class is instantiated again (the activation log doubles and the
instantiation counter reaches 2·|pending|) — but the path index is
overwritten in place rather than duplicated: its key list is unchanged from
the first activation and stays duplicate-free. -/
theorem c5_reactivation_reprocesses_all (P : List (PyClass × Option String)) :
    (ModuleRegistry.activate (ModuleRegistry.activate emptyRegistry P) P).log =
      pendingSpecs P ++ pendingSpecs P ∧
    (ModuleRegistry.activate (ModuleRegistry.activate emptyRegistry P) P).nextId =
      2 * P.length ∧
    dkeys (ModuleRegistry.activate (ModuleRegistry.activate emptyRegistry P) P).path_dict =
      dkeys (ModuleRegistry.activate emptyRegistry P).path_dict ∧
    (dkeys (ModuleRegistry.activate
      (ModuleRegistry.activate emptyRegistry P) P).path_dict).Nodup := by
  refine ⟨?_, ?_, ?_, ?_⟩
  · rw [activate_log, activate_log]
    simp [emptyRegistry]
  · rw [activate_nextId, activate_nextId]
    simp [emptyRegistry]
    omega
  · apply dkeys_activate_of_subset
    intro e he
    exact pendingSpecs_mem_dkeys_activate P he emptyRegistry
  · apply nodup_dkeys_activate
    apply nodup_dkeys_activate
    simp [emptyRegistry, dkeys]

/-- C6: activating two pending registrations with distinct pathSpecs but the
same keyword: the keyword lookup returns the later-registered instance, the
path lookup at the first pathSpec still returns the first instance, and
exactly one collision warning is emitted, naming the dropped and the winning
pathSpec. -/
theorem c6_keyword_collision (sA sB k : String) (h : sA ≠ sB) :
    ModuleRegistry.get_by_kw
        (ModuleRegistry.activate emptyRegistry [(⟨sA, true⟩, some k), (⟨sB, true⟩, some k)])
        k none = Except.ok ⟨1, sB, some k⟩ ∧
    ModuleRegistry.get_by_path
        (ModuleRegistry.activate emptyRegistry [(⟨sA, true⟩, some k), (⟨sB, true⟩, some k)])
        sA none = Except.ok ⟨0, sA, some k⟩ ∧
    (ModuleRegistry.activate emptyRegistry
        [(⟨sA, true⟩, some k), (⟨sB, true⟩, some k)]).warnings = [(k, sA, sB)] := by
  refine ⟨?_, ?_, ?_⟩ <;>
    simp [ModuleRegistry.activate, activateStep, emptyRegistry, dget, dset,
      ModuleRegistry.get_by_kw, ModuleRegistry.get_by_path,
      KeywordRegistry.getitem, ModuleRegistry.getitem, h]

/-- C6 witness: the spec's scenario with paths "pkg.A", "pkg.B" and keyword
"fir". -/
theorem c6_keyword_collision_witness :
    ModuleRegistry.get_by_kw
        (ModuleRegistry.activate emptyRegistry
          [(⟨"pkg.A", true⟩, some "fir"), (⟨"pkg.B", true⟩, some "fir")])
        "fir" none = Except.ok ⟨1, "pkg.B", some "fir"⟩ ∧
    ModuleRegistry.get_by_path
        (ModuleRegistry.activate emptyRegistry
          [(⟨"pkg.A", true⟩, some "fir"), (⟨"pkg.B", true⟩, some "fir")])
        "pkg.A" none = Except.ok ⟨0, "pkg.A", some "fir"⟩ ∧
    (ModuleRegistry.activate emptyRegistry
        [(⟨"pkg.A", true⟩, some "fir"), (⟨"pkg.B", true⟩, some "fir")]).warnings =
      [("fir", "pkg.A", "pkg.B")] :=
  c6_keyword_collision "pkg.A" "pkg.B" "fir" (by decide)

/-- C7: the channel-weighting keyword parser on the four claimed inputs —
"5x2" yields mean and sd containers of shape (5, 2); "5x2.g" parses
(valid option); "5x2.c.g" fails with KeywordFormatError (mutually exclusive
options); "5x2.q" fails with KeywordFormatError (unknown option). -/
theorem c7_wc_parse_kw_cases :
    WCBasic.parse_kw "5x2" = Except.ok ⟨(5, 2), (5, 2)⟩ ∧
    WCBasic.parse_kw "5x2.g" = Except.ok ⟨(5, 2), (5, 2)⟩ ∧
    WCBasic.parse_kw "5x2.c.g" = Except.error RegErr.keywordFormatError ∧
    WCBasic.parse_kw "5x2.q" = Except.error RegErr.keywordFormatError :=
  ⟨by decide, by decide, by decide, by decide⟩

def c8BadClass : PyClass := ⟨"m.NotAModule", false⟩

/-- C8 counterexample: the registration hook DOES validate the class at
registration time — a class not inheriting from ModuleBase is rejected with
TypeError: nothing is appended and the class is not returned. -/
theorem c8_hook_rejects_non_subclass :
    register_module none c8BadClass [] = Except.error RegErr.typeError := by decide

/-- C8 (amended): for every class that inherits from ModuleBase and every
optional keyword, the registration hook appends (class, keyword) to the
pending list and returns the class itself unchanged, with no instantiation
(the entry stores the class, no instance is created); the only
registration-time check is the ModuleBase-inheritance test. -/
theorem c8_hook_appends_and_returns_class (pending : List (PyClass × Option String))
    (cls : PyClass) (kw : Option String) (h : cls.isModuleBaseSubclass = true) :
    register_module kw cls pending = Except.ok (pending ++ [(cls, kw)], cls) := by
  simp [register_module, ModuleRegistry.register, h]

/-- C8 witness: registering a concrete ModuleBase subclass. -/
theorem c8_hook_appends_and_returns_class_witness :
    register_module (some "fir") ⟨"modules.fir.FIRBasic", true⟩ [] =
      Except.ok ([(⟨"modules.fir.FIRBasic", true⟩, some "fir")],
        ⟨"modules.fir.FIRBasic", true⟩) :=
  c8_hook_appends_and_returns_class [] ⟨"modules.fir.FIRBasic", true⟩ (some "fir") rfl

/-- C9: load_directory fails with NotFoundError when the directory does not
exist (and performs no loading — the result carries no load actions); when
it exists, the load plan contains every candidate .py file except package-
init files, each under the dotted specifier computed relative to the
directory's parent, and nothing else. -/
theorem c9_load_directory (d : SrcDir) :
    (d.pathExists = false →
      ModuleRegistry.load_directory d = Except.error RegErr.notFoundError) ∧
    (d.pathExists = true → exceptOk (ModuleRegistry.load_directory d) = true) ∧
    (∀ f ∈ d.pyFiles, f.fileName ≠ "__init__.py" → ∀ loads,
      ModuleRegistry.load_directory d = Except.ok loads →
        (dottedSpec d.name f, f) ∈ loads) ∧
    (∀ loads, ModuleRegistry.load_directory d = Except.ok loads → ∀ p ∈ loads,
      p.2 ∈ d.pyFiles ∧ p.2.fileName ≠ "__init__.py" ∧ p.1 = dottedSpec d.name p.2) := by
  refine ⟨?_, ?_, ?_, ?_⟩
  · intro h
    simp [ModuleRegistry.load_directory, h]
  · intro h
    simp [ModuleRegistry.load_directory, h, exceptOk]
  · intro f hf hne loads hl
    unfold ModuleRegistry.load_directory at hl
    by_cases h : d.pathExists
    · rw [if_pos h] at hl
      injection hl with h2
      rw [← h2]
      exact globLoads_complete d.name d.pyFiles f hf hne
    · rw [if_neg h] at hl
      cases hl
  · intro loads hl p hp
    unfold ModuleRegistry.load_directory at hl
    by_cases h : d.pathExists
    · rw [if_pos h] at hl
      injection hl with h2
      rw [← h2] at hp
      exact globLoads_sound d.name d.pyFiles p hp
    · rw [if_neg h] at hl
      cases hl

def c9Dir : SrcDir :=
  ⟨"modules", true, [⟨[], "fir.py"⟩, ⟨[], "__init__.py"⟩, ⟨["sub"], "weight_channels.py"⟩]⟩

/-- C9 witness: a concrete directory; the non-init file "fir.py" is loaded
under specifier "modules.fir" while "__init__.py" is skipped. -/
theorem c9_load_directory_witness :
    c9Dir.pathExists = true ∧
    (dottedSpec c9Dir.name ⟨[], "fir.py"⟩, (⟨[], "fir.py"⟩ : PyFile)) ∈
      [("modules.fir", (⟨[], "fir.py"⟩ : PyFile)),
       ("modules.sub.weight_channels", ⟨["sub"], "weight_channels.py"⟩)] :=
  ⟨rfl, (c9_load_directory c9Dir).2.2.1 ⟨[], "fir.py"⟩ (by decide) (by decide)
    [("modules.fir", ⟨[], "fir.py"⟩),
     ("modules.sub.weight_channels", ⟨["sub"], "weight_channels.py"⟩)] (by decide)⟩

/-- C10 (implicit): passing None as the default is the same as passing no
default — on a miss, get_by_path still fails with ModuleMissingError naming
the key and get_by_kw still fails with KeywordMissingError naming the key,
rather than returning None. -/
theorem c10_none_default_still_raises (st : RegistryState) (key : String) :
    (dget st.path_dict key = none →
      ModuleRegistry.get_by_path st key none =
        Except.error (RegErr.moduleMissingError key)) ∧
    (dget st.kw_registry key = none →
      ModuleRegistry.get_by_kw st key none =
        Except.error (RegErr.keywordMissingError key)) := by
  constructor
  · intro h
    simp [ModuleRegistry.get_by_path, ModuleRegistry.getitem, h]
  · intro h
    simp [ModuleRegistry.get_by_kw, KeywordRegistry.getitem, h]

/-- C10 witness: on the empty registry both lookups with a None default
raise the respective Missing error. -/
theorem c10_none_default_still_raises_witness :
    ModuleRegistry.get_by_path emptyRegistry "missing" none =
      Except.error (RegErr.moduleMissingError "missing") ∧
    ModuleRegistry.get_by_kw emptyRegistry "missing" none =
      Except.error (RegErr.keywordMissingError "missing") :=
  ⟨(c10_none_default_still_raises emptyRegistry "missing").1 rfl,
   (c10_none_default_still_raises emptyRegistry "missing").2 rfl⟩
